import Mathlib

/-!
Verification of the layout-driven legal-document segmentation engine
(`parser/parse_pdf.py` and `parser/llm_openrouter.py`).

The Python source is shallowly embedded: strings are `List Char`, PDF layout
coordinates (floats in the source) are modelled exactly as rationals `ℚ`,
Python dictionaries produced by `json.loads` are modelled by an inductive
`Json` type, and the two external collaborators (the PDF text extractor and
the LLM annotation service) are universally quantified parameters.  Regular
expressions are translated pattern by pattern into executable matchers with
Python's leftmost-match and greedy-with-backtracking semantics; wherever a
greedy quantifier cannot interact with its continuation (disjoint character
classes) the matcher is written deterministically, which is extensionally
equal to the backtracking search.
-/

namespace SwissLegalRag

/-- Whitespace test mirroring Python's `\s` / `str.strip()` on the ASCII
range (the only whitespace characters that occur in this pipeline). -/
def pySpace (c : Char) : Bool :=
  c = ' ' || c = '\t' || c = '\n' || c = '\r' || c = '\u000B' || c = '\u000C'

/-- Remove trailing characters satisfying `p` (Python `rstrip`). -/
def dropTrailWhile (p : Char → Bool) (l : List Char) : List Char :=
  (l.reverse.dropWhile p).reverse

/-- Python `str.strip()`: drop leading and trailing whitespace. -/
def pyStrip (l : List Char) : List Char :=
  dropTrailWhile pySpace (l.dropWhile pySpace)

/-- Python `str.rstrip('.')`: drop trailing dots. -/
def rstripDots (l : List Char) : List Char :=
  dropTrailWhile (fun c => c = '.') l

/-- Worker for whitespace collapsing; the flag records whether the previous
character was whitespace (so that a run emits a single space). -/
def collapseWsAux : Bool → List Char → List Char
  | _, [] => []
  | prevWs, c :: cs =>
    if pySpace c then
      if prevWs then collapseWsAux true cs
      else ' ' :: collapseWsAux true cs
    else c :: collapseWsAux false cs

/-- Python `re.sub(r'\s+', ' ', s)`: every whitespace run becomes one space. -/
def collapseWs (l : List Char) : List Char := collapseWsAux false l

/-- Python `' '.join(strings)`. -/
def joinSpace : List (List Char) → List Char
  | [] => []
  | [s] => s
  | s :: ss => s ++ ' ' :: joinSpace ss

/-- Python `'\n'.join(strings)`. -/
def joinNl : List (List Char) → List Char
  | [] => []
  | [s] => s
  | s :: ss => s ++ '\n' :: joinNl ss

/-- ASCII lower-casing extended with the German letters appearing in the
source's regular expressions (Python's `str.lower` on this alphabet). -/
def deLower (c : Char) : Char :=
  if 'A' ≤ c && c ≤ 'Z' then Char.ofNat (c.toNat + 32)
  else if c = 'Ä' then 'ä'
  else if c = 'Ö' then 'ö'
  else if c = 'Ü' then 'ü'
  else c

/-- Case-insensitive character comparison (the effect of `re.IGNORECASE`). -/
def ciEqChar (a b : Char) : Bool := deLower a = deLower b

/-- Match a literal case-insensitively at the head of `l`; on success return
the matched prefix (as it appears in `l`) and the remainder. -/
def matchLitCI : List Char → List Char → Option (List Char × List Char)
  | [], l => some ([], l)
  | _ :: _, [] => none
  | p :: ps, c :: cs =>
    if ciEqChar p c then
      (matchLitCI ps cs).map (fun r => (c :: r.1, r.2))
    else none

/-- First `some` of a list of alternatives, in order: this realises the
ordered-alternative (backtracking) semantics of a regex quantifier or
alternation. -/
def firstSome : List (Option α) → Option α
  | [] => none
  | some a :: _ => some a
  | none :: rest => firstSome rest

/-- Take exactly `n` digit characters from the head of `l`. -/
def takeDigitsExact : Nat → List Char → Option (List Char × List Char)
  | 0, l => some ([], l)
  | _ + 1, [] => none
  | n + 1, c :: cs =>
    if c.isDigit then (takeDigitsExact n cs).map (fun r => (c :: r.1, r.2)) else none

/-- Numeric value of a digit string (Python `int` on a decimal literal). -/
def digitsToNat (l : List Char) : ℕ :=
  l.foldl (fun acc c => 10 * acc + (c.toNat - '0'.toNat)) 0

/-- A JSON value as produced by Python's `json.loads`. -/
inductive Json where
  | null : Json
  | bool (b : Bool) : Json
  | num (q : ℚ) : Json
  | str (s : List Char) : Json
  | arr (xs : List Json) : Json
  | obj (kvs : List (List Char × Json)) : Json

/-- Python `isinstance(x, dict)`. -/
def Json.isDict : Json → Bool
  | .obj _ => true
  | _ => false

/-- Python `isinstance(x, str)`. -/
def Json.isStr : Json → Bool
  | .str _ => true
  | _ => false

/-- Python `dict` lookup; with duplicate keys `json.loads` keeps the last
occurrence, so the rightmost binding wins. -/
def jsonLookup (kvs : List (List Char × Json)) (k : List Char) : Option Json :=
  (kvs.reverse.find? (fun kv => kv.1 = k)).map (·.2)

/-- Python `d.get(key, default)` on a parsed JSON value (callers in the
source only apply it to objects). -/
def jsonGetD (j : Json) (k : List Char) (dflt : Json) : Json :=
  match j with
  | .obj kvs => (jsonLookup kvs k).getD dflt
  | _ => dflt

/-- Python truthiness of a JSON value. -/
def jsonTruthy : Json → Bool
  | .null => false
  | .bool b => b
  | .num q => q ≠ 0
  | .str s => !s.isEmpty
  | .arr xs => !xs.isEmpty
  | .obj kvs => !kvs.isEmpty

/-- A positioned text fragment as produced by the extraction collaborator
(`extract_text_with_layout`): `{text, bbox, page, font, size, flags}`.
The four bbox floats are modelled as exact rationals. -/
structure Block where
  text : List Char
  x0 : ℚ
  y0 : ℚ
  x1 : ℚ
  y1 : ℚ
  page : ℕ
  font : List Char
  size : ℚ
  flags : ℤ
deriving DecidableEq

/-- Ascending sort of rational lists (Python `list.sort()` / `sorted`). -/
def sortQ (l : List ℚ) : List ℚ := List.insertionSort (· ≤ ·) l

/-- The `(left, right, gap)` triples of consecutive sorted positions whose
gap exceeds the fixed 20-unit threshold (`parse_pdf.py` lines 78-82). -/
def gapsOf : List ℚ → List (ℚ × ℚ × ℚ)
  | a :: b :: rest =>
    (if b - a > 20 then [(a, b, b - a)] else []) ++ gapsOf (b :: rest)
  | _ => []

/-- Python `max(gaps, key=lambda x: x[2])` guarded by `if gaps:`; `max`
returns the first element among ties, hence the strict comparison. -/
def maxByGap (gaps : List (ℚ × ℚ × ℚ)) : Option (ℚ × ℚ × ℚ) :=
  gaps.foldl
    (fun best g =>
      match best with
      | none => some g
      | some b => if g.2.2 > b.2.2 then some g else some b)
    none

/-- The left x-coordinates (`bbox[0]`) of all fragments with non-blank text,
in stream order (`find_column_separator`, lines 67-71). -/
def xPositions (blocks : List Block) : List ℚ :=
  (blocks.filter (fun b => !(pyStrip b.text).isEmpty)).map (·.x0)

/-- The estimator's computation on the collected positions (lines 77-91):
sort ascending, collect the qualifying gaps; the midpoint of the largest
gap if one exists, otherwise the middle element `sorted[len // 2]` of the
(re-)sorted positions. -/
def colSepOf (xs : List ℚ) : ℚ :=
  match maxByGap (gapsOf (sortQ xs)) with
  | some largest => (largest.1 + largest.2.1) / 2
  | none => (sortQ (sortQ xs)).getD ((sortQ xs).length / 2) 0

/-- Column Separator Estimator (`find_column_separator`, lines 54-91): `0`
on an empty block list or when no fragment has non-blank text, otherwise
`colSepOf` of the collected x-positions. -/
def find_column_separator (blocks : List Block) : ℚ :=
  if blocks.isEmpty then 0
  else if (xPositions blocks).isEmpty then 0
  else colSepOf (xPositions blocks)

/-- An article as assembled by the segmenter: the three structural fields are
always present, the three enrichment fields are dictionary keys that exist
only after the enrichment pass (`none` = key absent). -/
structure Article where
  article_number : List Char
  article_title : List Char
  article_content : List Char
  article_summary : Option Json := none
  article_intention : Option Json := none
  article_keywords : Option Json := none

/-- A section: a title and its ordered list of articles. -/
structure Section where
  section_title : List Char
  articles : List Article

/-- Roman-char test for the section pattern character class `[IVX]`. -/
def isIVX (c : Char) : Bool := c = 'I' || c = 'V' || c = 'X'

/-- Matcher for `re.compile(r'^[IVX]+\.?\s*$').match(text)` on an already
stripped `text`: a non-empty run of `I`/`V`/`X` followed by nothing or by a
single dot (the trailing `\s*` cannot fire on stripped text). -/
def isSectionNumeral (t : List Char) : Bool :=
  let run := t.takeWhile isIVX
  let rest := t.drop run.length
  !run.isEmpty && (rest.isEmpty || rest = ['.'])

/-- Matcher for `re.match(r'^[A-Z]\.?$', next_text)`: one capital letter with
an optional trailing dot. -/
def isSubMarker : List Char → Bool
  | [c] => 'A' ≤ c && c ≤ 'Z'
  | [c, d] => ('A' ≤ c && c ≤ 'Z') && d = '.'
  | _ => false

/-- Greedy run of characters matching `[:\s]*` (the separator after an
article number). -/
def articleSep (l : List Char) : List Char :=
  l.dropWhile (fun c => c = ':' || pySpace c)

/-- Greedy `([^\n]*)`: everything up to the first newline. -/
def upToNl (l : List Char) : List Char := l.takeWhile (fun c => c ≠ '\n')

/-- Shared tail of the five article patterns: `(\d+)[:\s]*([^\n]*)` from `l`.
`\d+` is greedy and its continuation `[:\s]*([^\n]*)` always matches, so the
maximal digit run is the match. Returns `(number, inline title)`. -/
def articleNumTail (l : List Char) : Option (List Char × List Char) :=
  let ds := l.takeWhile Char.isDigit
  if ds.isEmpty then none
  else some (ds, upToNl (articleSep (l.drop ds.length)))

/-- Pattern `Article\s+(\d+)[:\s]*([^\n]*)` anchored at the start
(`re.match`, `re.IGNORECASE`). -/
def artPatWord (word : List Char) (needSpace : Bool) (t : List Char) :
    Option (List Char × List Char) :=
  (matchLitCI word t).bind fun r =>
    let ws := r.2.takeWhile pySpace
    if needSpace && ws.isEmpty then none
    else articleNumTail (r.2.drop ws.length)

/-- Pattern `Art\.\s*(\d+)[:\s]*([^\n]*)`. -/
def artPatAbbrev (t : List Char) : Option (List Char × List Char) :=
  (matchLitCI ("Art".data) t).bind fun r =>
    match r.2 with
    | '.' :: rest => artPatWord [] false rest
    | _ => none

/-- Pattern `§\s*(\d+)[:\s]*([^\n]*)`. -/
def artPatPara (t : List Char) : Option (List Char × List Char) :=
  match t with
  | '§' :: rest => artPatWord [] false rest
  | _ => none

/-- Pattern `(\d+)\.\s*([^\n]*)`: a digit run, a literal dot, optional
whitespace, then the inline title.  The digit run is effectively maximal: a
shorter backtracking candidate leaves a digit where the dot is required. -/
def artPatBare (t : List Char) : Option (List Char × List Char) :=
  let ds := t.takeWhile Char.isDigit
  if ds.isEmpty then none
  else
    match t.drop ds.length with
    | '.' :: rest => some (ds, upToNl (rest.dropWhile pySpace))
    | _ => none

/-- The five article-marker patterns of
`split_into_sections_and_articles_with_layout` (lines 103-109), tried in
their fixed priority order with `re.match(..., re.IGNORECASE)`; the first
match wins.  Returns `(captured number, raw inline-title capture)`. -/
def matchArticle (t : List Char) : Option (List Char × List Char) :=
  firstSome
    [ artPatWord ("Article".data) true t
    , artPatAbbrev t
    , artPatPara t
    , artPatWord ("Section".data) true t
    , artPatBare t ]

/-- Look-ahead title parts collected after a section numeral (lines
127-139): blank fragments are skipped, single-capital-letter(+dot) fragments
are absorbed (dot-stripped) and the scan continues, and the first other
non-blank fragment ends the scan as the title text. -/
def lookAheadParts : List Block → List (List Char)
  | [] => []
  | b :: bs =>
    let t := pyStrip b.text
    if t.isEmpty then lookAheadParts bs
    else if isSubMarker t then rstripDots t :: lookAheadParts bs
    else [t]

/-- Number of fragments consumed by the look-ahead of `lookAheadParts`
(Python's `j - (i + 1)` plus the consumed title fragment: the new scan
index is `j + 1`). -/
def lookAheadCount : List Block → ℕ
  | [] => 0
  | b :: bs =>
    let t := pyStrip b.text
    if t.isEmpty then 1 + lookAheadCount bs
    else if isSubMarker t then 1 + lookAheadCount bs
    else 1

/-- Mutable loop state of the segmenter: the closed sections, the open
section, the open article's captured number, and the two accumulator lists
(fragment texts).  `skip` realises the source's `i = j + 1` jump over the
fragments consumed by the section look-ahead: the main loop is structural
over the fragment stream and ignores `skip`-many fragments. -/
structure SegState where
  sections : List Section
  current_section : Option Section
  current_article : Option (List Char)
  current_title_blocks : List (List Char)
  current_content_blocks : List (List Char)
  skip : ℕ

/-- Initial segmenter state. -/
def initSegState : SegState :=
  { sections := [], current_section := none, current_article := none,
    current_title_blocks := [], current_content_blocks := [], skip := 0 }

/-- Closing an open article (lines 144-151 / 167-172 / 195-199): join the
accumulators with single spaces, strip, and append the article to the open
section — the article is silently dropped when no section is open. -/
def flushArticle (st : SegState) : SegState :=
  match st.current_article with
  | none => st
  | some num =>
    let art : Article :=
      { article_number := num,
        article_title := pyStrip (joinSpace st.current_title_blocks),
        article_content := pyStrip (joinSpace st.current_content_blocks) }
    match st.current_section with
    | some sec =>
      { st with
        current_section := some { sec with articles := sec.articles ++ [art] },
        current_article := none,
        current_title_blocks := [], current_content_blocks := [] }
    | none =>
      { st with
        current_article := none,
        current_title_blocks := [], current_content_blocks := [] }

/-- Closing the open section (lines 152-154 / 200-201): append it to the
document's section list. -/
def flushSection (st : SegState) : SegState :=
  match st.current_section with
  | some sec => { st with sections := st.sections ++ [sec], current_section := none }
  | none => st

/-- The composed title of a newly opened section (lines 140-142):
`"<numeral>. <joined look-ahead parts>"`, or the bare numeral when the
look-ahead collected nothing. -/
def composeSectionTitle (numeral : List Char) (parts : List (List Char)) : List Char :=
  if parts.isEmpty then numeral else numeral ++ '.' :: ' ' :: joinSpace parts

/-- One instrumented run of the segmenter loop (lines 117-201).  Besides the
section list it returns a log with one entry per fragment that matched an
article pattern during the pass: the captured number together with whether a
section was open at that moment (the instrumentation only observes; the
first projection is exactly the source computation). -/
def segRun (colSep : ℚ) : List Block → SegState → List Section × List (List Char × Bool)
  | [], st => ((flushSection (flushArticle st)).sections, [])
  | b :: bs, st =>
    if st.skip ≠ 0 then segRun colSep bs { st with skip := st.skip - 1 }
    else
      let t := pyStrip b.text
      if t.isEmpty then segRun colSep bs st
      else if isSectionNumeral t then
        let numeral := rstripDots t
        let section_title := composeSectionTitle numeral (lookAheadParts bs)
        let st1 := flushSection (flushArticle st)
        let st2 :=
          { st1 with
            current_section := some { section_title := pyStrip section_title, articles := [] },
            skip := lookAheadCount bs }
        segRun colSep bs st2
      else
        match matchArticle t with
        | some (num, rawTitle) =>
          let st1 := flushArticle st
          let title_text := pyStrip rawTitle
          let st2 :=
            { st1 with
              current_article := some num,
              current_title_blocks := if title_text.isEmpty then [] else [title_text],
              current_content_blocks := [] }
          let r := segRun colSep bs st2
          (r.1, (num, st.current_section.isSome) :: r.2)
        | none =>
          if st.current_article.isSome then
            if b.x0 < colSep then
              segRun colSep bs
                { st with current_title_blocks := st.current_title_blocks ++ [b.text] }
            else
              segRun colSep bs
                { st with current_content_blocks := st.current_content_blocks ++ [b.text] }
          else segRun colSep bs st

/-- Structural Segmenter (`split_into_sections_and_articles_with_layout`,
lines 94-202). -/
def split_into_sections_and_articles_with_layout (blocks : List Block) : List Section :=
  (segRun (find_column_separator blocks) blocks initSegState).1

/-- The article-marker match log of the single segmentation pass (see
`segRun`): one entry per fragment matched as an article marker. -/
def segLog (blocks : List Block) : List (List Char × Bool) :=
  (segRun (find_column_separator blocks) blocks initSegState).2

/-- Article numbers of the produced sections, in output order. -/
def secNumbers (secs : List Section) : List (List Char) :=
  secs.flatMap (fun s => s.articles.map (·.article_number))

/-- Total number of articles over all sections. -/
def countArticles (secs : List Section) : ℕ :=
  (secNumbers secs).length

/-- Decidable structural view of a section: its title together with the
`(number, title, content)` triples of its articles, used to state concrete
evaluations (the enrichment fields are not part of the skeleton). -/
def sectionSkeleton (s : Section) : List Char × List (List Char × List Char × List Char) :=
  (s.section_title, s.articles.map fun a => (a.article_number, a.article_title, a.article_content))

/-- Skeleton view of a whole section list. -/
def skeleton (secs : List Section) : List (List Char × List (List Char × List Char × List Char)) :=
  secs.map sectionSkeleton

/-- The letter class `[a-zA-ZäöüÄÖÜß]` of the hyphen-join pattern. -/
def hyphLetter (c : Char) : Bool :=
  ('a' ≤ c && c ≤ 'z') || ('A' ≤ c && c ≤ 'Z') ||
    c = 'ä' || c = 'ö' || c = 'ü' || c = 'Ä' || c = 'Ö' || c = 'Ü' || c = 'ß'

/-- Streaming worker for `re.sub(r'-\s*\n?\s*([a-zA-ZäöüÄÖÜß])', r'\1', text)`
(`join_broken_words`, line 348).  Because `\s` includes `\n`, the pattern is
a hyphen, a whitespace run, then a letter, replaced by the letter alone; the
scan then continues after the letter (non-overlapping matches).  The flag
says we are right after an unresolved hyphen and `buf` holds the whitespace
seen since it; when no letter follows, the hyphen and the whitespace are
emitted unchanged and scanning continues at the character that ended the
run, exactly as the regex engine resumes after a failed match. -/
def jbGo : Bool → List Char → List Char → List Char
  | false, _, [] => []
  | false, _, c :: cs =>
    if c = '-' then jbGo true [] cs else c :: jbGo false [] cs
  | true, buf, [] => '-' :: buf
  | true, buf, c :: cs =>
    if pySpace c then jbGo true (buf ++ [c]) cs
    else if hyphLetter c then c :: jbGo false [] cs
    else if c = '-' then ('-' :: buf) ++ jbGo true [] cs
    else ('-' :: buf) ++ c :: jbGo false [] cs

/-- Text Normalizer step 1 (`join_broken_words`, lines 336-351): undo
hyphenation line breaks, then turn the remaining explicit line breaks into
spaces. -/
def join_broken_words (text : List Char) : List Char :=
  if text.isEmpty then text
  else (jbGo false [] text).map (fun c => if c = '\n' then ' ' else c)

/-- Does `(Seite|Page)?\s*\d+\s*$` match the whole suffix `l`?  The three
alternatives of the optional group are tried in order (`Seite`, `Page`,
empty); after it, a whitespace run, at least one digit, and a final
whitespace run must reach the end of the string. -/
def pageTailNum (l : List Char) : Bool :=
  let r := l.dropWhile pySpace
  let ds := r.takeWhile Char.isDigit
  !ds.isEmpty && (r.drop ds.length).all pySpace

/-- One suffix candidate of the trailing-page-number pattern. -/
def pageTailAt (l : List Char) : Bool :=
  (match matchLitCI ("Seite".data) l with
   | some r => pageTailNum r.2
   | none => false) ||
  (match matchLitCI ("Page".data) l with
   | some r => pageTailNum r.2
   | none => false) ||
  pageTailNum l

/-- Index of the leftmost suffix where the trailing-page-number pattern
matches (`re.sub` removes the leftmost match, which here runs to the end of
the string). -/
def firstPageTail : List Char → Option ℕ
  | [] => none
  | c :: cs =>
    if pageTailAt (c :: cs) then some 0
    else (firstPageTail cs).map (· + 1)

/-- Text Normalizer step 2 (`remove_trailing_page_numbers`, lines 354-368):
remove an optional `Seite`/`Page` token followed by digits at the end of the
string, then trim trailing whitespace. -/
def remove_trailing_page_numbers (text : List Char) : List Char :=
  if text.isEmpty then text
  else
    let cut :=
      match firstPageTail text with
      | some p => text.take p
      | none => text
    dropTrailWhile pySpace cut

/-- The lookahead `(?=[ ]{4,}|$)` of the mid-text page-number pattern: end of
string or at least four literal spaces. -/
def midLookahead (r : List Char) : Bool :=
  r.isEmpty || (r.takeWhile (fun c => c = ' ')).length ≥ 4

/-- The `(\d{1,3})(?=[ ]{4,}|$)` part at position `l`: greedy digit count 3,
then 2, then 1; returns the number of digits consumed.  (The lookahead is
not consumed.) -/
def midDigits (l : List Char) : Option ℕ :=
  firstSome
    ([3, 2, 1].map fun d =>
      (takeDigitsExact d l).bind fun r =>
        if midLookahead r.2 then some d else none)

/-- A match of `(?:^|[ ]{4,})(\d{1,3})(?=[ ]{4,}|$)` starting exactly at `l`:
the `^` alternative (only when at string start) or a maximal run of at least
four spaces, then the digit group.  Returns the total number of characters
consumed by the match (prefix spaces plus digits, at least one). -/
def tryMid (atStart : Bool) (l : List Char) : Option ℕ :=
  (if atStart then midDigits l else none) <|>
    (let sp := l.takeWhile (fun c => c = ' ')
     if sp.length ≥ 4 then (midDigits (l.drop sp.length)).map (· + sp.length)
     else none)

/-- Streaming worker for the mid-text page-number strip: `skip` counts match
characters still to delete; a fresh match is only sought when not skipping.
After the first character the `^` alternative is dead (`atStart = false`). -/
def midGo : Bool → ℕ → List Char → List Char
  | _, _, [] => []
  | _, n + 1, _ :: cs => midGo false n cs
  | atStart, 0, c :: cs =>
    match tryMid atStart (c :: cs) with
    | some n => midGo false (n - 1) cs
    | none => c :: midGo false 0 cs

/-- Text Normalizer step 3 (`clean_section_article_text`, line 403):
`re.sub(r'(?:^|[ ]{4,})(\d{1,3})(?=[ ]{4,}|$)', '', content)` deletes
standalone 1-3 digit runs flanked by at least four spaces (or the string
boundaries). -/
def stripMidPageNumbers (text : List Char) : List Char :=
  midGo true 0 text

/-- Does a sub-section marker `[IVX]+\.` start exactly here?  Greedy
`[IVX]+` with backtracking: some non-empty roman prefix is followed by a
dot. -/
def romanDotHere : List Char → Bool
  | [] => false
  | c :: rest => isIVX c && romanDotCont rest
where
  romanDotCont : List Char → Bool
    | [] => false
    | c :: rest => c = '.' || (isIVX c && romanDotCont rest)

/-- Does a single capital letter plus dot `[A-Z]\.` start exactly here? -/
def capDotHere : List Char → Bool
  | c :: '.' :: _ => 'A' ≤ c && c ≤ 'Z'
  | _ => false

/-- Does `\s{0,2}(?:[IVX]+\.|[A-Z]\.)\s*` match starting exactly here?  Up
to two whitespace characters may precede the marker (any count from 0 to 2
suffices for a match; the trailing `\s*` always matches). -/
def titleMarkerHere (l : List Char) : Bool :=
  romanDotHere l || capDotHere l ||
    (match l with
     | c :: rest =>
       pySpace c &&
         (romanDotHere rest || capDotHere rest ||
           (match rest with
            | d :: rest2 => pySpace d && (romanDotHere rest2 || capDotHere rest2)
            | [] => false))
     | [] => false)

/-- Start index of the leftmost match of the title sub-marker pattern
(`re.search` semantics). -/
def titleMarkerSearch : List Char → Option ℕ
  | [] => none
  | c :: cs =>
    if titleMarkerHere (c :: cs) then some 0
    else (titleMarkerSearch cs).map (· + 1)

/-- Title-only normalizer step (`remove_section_titles_from_title`, lines
371-384): cut the title at the first sub-section marker
(`re.search(r'(\s{0,2}(?:[IVX]+\.|[A-Z]\.)\s*)', title)`), strip, and
collapse whitespace runs. -/
def remove_section_titles_from_title (title : List Char) : List Char :=
  let cleaned :=
    match titleMarkerSearch title with
    | some p => pyStrip (title.take p)
    | none => pyStrip title
  collapseWs cleaned

/-- Word character for `\b` boundaries (Python `\w`), on the ASCII range
plus the German letters that occur in the month names. -/
def wordChar (c : Char) : Bool :=
  ('a' ≤ c && c ≤ 'z') || ('A' ≤ c && c ≤ 'Z') || c.isDigit || c = '_' ||
    c = 'ä' || c = 'ö' || c = 'ü' || c = 'Ä' || c = 'Ö' || c = 'Ü' || c = 'ß'

/-- A `\b` boundary holds before the match when the previous character (if
any) is a non-word character — all five date patterns open with a word
character. -/
def bdryBefore : Option Char → Bool
  | none => true
  | some c => !wordChar c

/-- A `\b` boundary holds after the match when the remainder starts with a
non-word character or is empty — all five date patterns close with a word
character. -/
def bdryAfter : List Char → Bool
  | [] => true
  | c :: _ => !wordChar c

/-- Greedy `\d{lo..hi}` with backtracking: the candidate digit counts are
tried longest first, and for each the continuation `k` is attempted. -/
def digitsBacktrack (counts : List ℕ) (l : List Char)
    (k : List Char → List Char → Option α) : Option α :=
  firstSome (counts.map fun n => (takeDigitsExact n l).bind fun r => k r.1 r.2)

/-- One separator character of the numeric date patterns: a slash or a
dash. -/
def dateSep : List Char → Option (List Char)
  | c :: cs => if c = '/' || c = '-' then some cs else none
  | [] => none

/-- At least one whitespace character, taken greedily (`\s+`; the token that
follows is never whitespace, so the maximal run is the only candidate). -/
def wsPlus (l : List Char) : Option (List Char) :=
  let ws := l.takeWhile pySpace
  if ws.isEmpty then none else some (l.drop ws.length)

/-- Optional comma (`,?`; the token that follows is `\s+`, which cannot
match a comma, so taking a present comma is the only viable candidate). -/
def optComma : List Char → List Char
  | ',' :: cs => cs
  | l => l

/-- Month-name alternation under `re.IGNORECASE`: the names are tried in
their listed order; returns the matched text as it appears in the input and
the remainder. -/
def monthAlt (months : List (List Char)) (l : List Char) :
    Option (List Char × List Char) :=
  firstSome (months.map fun m => matchLitCI m l)

/-- The English month names, in the order of the source dictionary. -/
def monthsEn : List (List Char) :=
  [ "January".data, "February".data, "March".data, "April".data, "May".data,
    "June".data, "July".data, "August".data, "September".data,
    "October".data, "November".data, "December".data ]

/-- The German month names, in the order of the source dictionary. -/
def monthsDe : List (List Char) :=
  [ "Januar".data, "Februar".data, "März".data, "April".data, "Mai".data,
    "Juni".data, "Juli".data, "August".data, "September".data,
    "Oktober".data, "November".data, "Dezember".data ]

/-- Python `str.capitalize` on the alphabet of the month names: first
character upper-cased, the rest lower-cased. -/
def pyCapitalize : List Char → List Char
  | [] => []
  | c :: cs =>
    (if 'a' ≤ c && c ≤ 'z' then Char.ofNat (c.toNat - 32) else c) :: cs.map deLower

/-- Dictionary lookup `months_xx[month.capitalize()]` as 1-based month
number; a missing key would raise `KeyError`, which the `except` catches,
hence the `Option`. -/
def monthNumber (months : List (List Char)) (txt : List Char) : Option ℕ :=
  match months.findIdx? (fun m => m = pyCapitalize txt) with
  | some i => some (i + 1)
  | none => none

/-- Raw captures of one date-pattern match: the three group texts. -/
abbrev DateGroups := List Char × List Char × List Char

/-- Pattern 1, day-sep-month-sep-year: `\b(\d{1,2})` then a slash-or-dash
separator, `(\d{1,2})`, another separator, and `(\d{2,4})\b`, matched at
the current position. -/
def dmyHere (prev : Option Char) (l : List Char) : Option DateGroups :=
  if !bdryBefore prev then none
  else
    digitsBacktrack [2, 1] l fun g1 r1 =>
      (dateSep r1).bind fun r2 =>
        digitsBacktrack [2, 1] r2 fun g2 r3 =>
          (dateSep r3).bind fun r4 =>
            digitsBacktrack [4, 3, 2] r4 fun g3 r5 =>
              if bdryAfter r5 then some (g1, g2, g3) else none

/-- Pattern 2, year-sep-month-sep-day: `\b(\d{4})`, a slash-or-dash
separator, `(\d{1,2})`, another separator, and `(\d{1,2})\b`. -/
def ymdHere (prev : Option Char) (l : List Char) : Option DateGroups :=
  if !bdryBefore prev then none
  else
    digitsBacktrack [4] l fun g1 r1 =>
      (dateSep r1).bind fun r2 =>
        digitsBacktrack [2, 1] r2 fun g2 r3 =>
          (dateSep r3).bind fun r4 =>
            digitsBacktrack [2, 1] r4 fun g3 r5 =>
              if bdryAfter r5 then some (g1, g2, g3) else none

/-- Patterns 3 and 4, `\b(<月>)\s+(\d{1,2}),?\s+(\d{4})\b` with the English
or German month alternation. -/
def monthDayYearHere (months : List (List Char)) (prev : Option Char)
    (l : List Char) : Option DateGroups :=
  if !bdryBefore prev then none
  else
    (monthAlt months l).bind fun m =>
      (wsPlus m.2).bind fun r1 =>
        digitsBacktrack [2, 1] r1 fun g2 r2 =>
          (wsPlus (optComma r2)).bind fun r3 =>
            digitsBacktrack [4] r3 fun g3 r4 =>
              if bdryAfter r4 then some (m.1, g2, g3) else none

/-- Pattern 5, `\b(\d{1,2})\.\s*(<German month>)\s*(\d{4})\b`. -/
def dayMonthYearHere (prev : Option Char) (l : List Char) : Option DateGroups :=
  if !bdryBefore prev then none
  else
    digitsBacktrack [2, 1] l fun g1 r1 =>
      match r1 with
      | '.' :: r2 =>
        (monthAlt monthsDe (r2.dropWhile pySpace)).bind fun m =>
          digitsBacktrack [4] (m.2.dropWhile pySpace) fun g3 r4 =>
            if bdryAfter r4 then some (g1, m.1, g3) else none
      | _ => none

/-- `re.search`: try the position matcher at every suffix, left to right,
tracking the previous character for the opening `\b`. -/
def reSearch (hereM : Option Char → List Char → Option α) :
    Option Char → List Char → Option α
  | prev, [] => hereM prev []
  | prev, c :: cs =>
    match hereM prev (c :: cs) with
    | some r => some r
    | none => reSearch hereM (some c) cs

/-- The five date patterns of `extract_metadata_from_blocks` (lines
236-242), in priority order. -/
inductive DatePat where
  | dmy : DatePat
  | ymd : DatePat
  | enMonth : DatePat
  | deMonthDY : DatePat
  | deDMonthY : DatePat
deriving DecidableEq

/-- The fixed priority list of date patterns. -/
def datePatterns : List DatePat := [.dmy, .ymd, .enMonth, .deMonthDY, .deDMonthY]

/-- First match (`re.search`) of a date pattern in `s`. -/
def searchDatePat : DatePat → List Char → Option DateGroups
  | .dmy, s => reSearch dmyHere none s
  | .ymd, s => reSearch ymdHere none s
  | .enMonth, s => reSearch (monthDayYearHere monthsEn) none s
  | .deMonthDY, s => reSearch (monthDayYearHere monthsDe) none s
  | .deDMonthY, s => reSearch dayMonthYearHere none s

/-- A valid `datetime.date` value. -/
structure PyDate where
  year : ℕ
  month : ℕ
  day : ℕ
deriving DecidableEq

/-- Gregorian leap-year rule used by `datetime.date`. -/
def isLeap (y : ℕ) : Bool :=
  y % 4 = 0 && (y % 100 ≠ 0 || y % 400 = 0)

/-- Days in a month for `datetime.date` validity. -/
def daysInMonth (y m : ℕ) : ℕ :=
  if m = 2 then (if isLeap y then 29 else 28)
  else if m = 4 || m = 6 || m = 9 || m = 11 then 30
  else 31

/-- The `datetime.date(year, month, day)` constructor: `some` on a valid
calendar date (`MINYEAR = 1`, `MAXYEAR = 9999`), `none` when the
constructor would raise. -/
def mkPyDate (y m d : ℕ) : Option PyDate :=
  if 1 ≤ y && y ≤ 9999 && 1 ≤ m && m ≤ 12 && 1 ≤ d && d ≤ daysInMonth y m then
    some ⟨y, m, d⟩
  else none

/-- The two-digit-year pivot of pattern 1 (lines 250-251): `'20' + y` when
`int(y) < 50`, else `'19' + y`, applied only to two-character year
captures. -/
def pivotYear (ys : List Char) : ℕ :=
  if ys.length = 2 then
    (if digitsToNat ys < 50 then 2000 else 1900) + digitsToNat ys
  else digitsToNat ys

/-- Construction of a `datetime.date` from the captures of one pattern
(lines 247-267); `none` models both `if match:` failing and the `except`
branch (invalid date or month-key error). -/
def constructDate (p : DatePat) (s : List Char) : Option PyDate :=
  (searchDatePat p s).bind fun g =>
    match p with
    | .dmy => mkPyDate (pivotYear g.2.2) (digitsToNat g.2.1) (digitsToNat g.1)
    | .ymd => mkPyDate (digitsToNat g.1) (digitsToNat g.2.1) (digitsToNat g.2.2)
    | .enMonth =>
      (monthNumber monthsEn g.1).bind fun m =>
        mkPyDate (digitsToNat g.2.2) m (digitsToNat g.2.1)
    | .deMonthDY =>
      (monthNumber monthsDe g.1).bind fun m =>
        mkPyDate (digitsToNat g.2.2) m (digitsToNat g.2.1)
    | .deDMonthY =>
      (monthNumber monthsDe g.2.1).bind fun m =>
        mkPyDate (digitsToNat g.2.2) m (digitsToNat g.1)

/-- Decimal digits of a natural number. -/
def natDigits (n : ℕ) : List Char :=
  (Nat.toDigits 10 n).map id

/-- Two-digit zero-padded rendering (`%d` / `%m`; both fields are at most
two digits for a valid date). -/
def pad2 (n : ℕ) : List Char :=
  Char.ofNat ('0'.toNat + n / 10 % 10) :: [Char.ofNat ('0'.toNat + n % 10)]

/-- `dt.strftime('%d.%m.%Y')` (the year of any date constructible from the
patterns has four digits, rendered unpadded). -/
def formatPyDate (dt : PyDate) : List Char :=
  pad2 dt.day ++ '.' :: pad2 dt.month ++ '.' :: natDigits dt.year

/-- The pattern loop of the date extraction (lines 243-271): the first
pattern whose first match constructs a valid date wins; a construction
failure falls through to the next pattern; no success leaves the empty
string. -/
def tryDatePatterns : List DatePat → List Char → List Char
  | [], _ => []
  | p :: ps, s =>
    match constructDate p s with
    | some dt => formatPyDate dt
    | none => tryDatePatterns ps s

/-- Python `' '.join(block['text'] for block in blocks)` (line 235). -/
def allText (blocks : List Block) : List Char :=
  joinSpace (blocks.map (·.text))

/-- Lexicographic key order `(page, y0, x0)` of the metadata title scan. -/
def blockKeyLe (a b : Block) : Prop :=
  a.page < b.page ∨ (a.page = b.page ∧
    (a.y0 < b.y0 ∨ (a.y0 = b.y0 ∧ a.x0 ≤ b.x0)))

instance : DecidableRel blockKeyLe := fun a b => by
  unfold blockKeyLe; infer_instance

/-- Python `sorted(blocks, key=lambda x: (x['page'], x['bbox'][1],
x['bbox'][0]))` (line 224); `insertionSort` with a total preorder is
stable, like Python's sort. -/
def sortBlocks (blocks : List Block) : List Block :=
  List.insertionSort blockKeyLe blocks

/-- The boilerplate check `re.match(r'^(Page|Seite|©|Copyright)', text,
re.IGNORECASE)` (line 230). -/
def boilerplateStart (t : List Char) : Bool :=
  (matchLitCI ("Page".data) t).isSome || (matchLitCI ("Seite".data) t).isSome ||
    (matchLitCI ("©".data) t).isSome || (matchLitCI ("Copyright".data) t).isSome

/-- The title scan (lines 226-232): the first of the given blocks whose
stripped text is non-empty and not boilerplate provides the title,
truncated to 200 characters. -/
def findTitle : List Block → List Char
  | [] => []
  | b :: bs =>
    let t := pyStrip b.text
    if !t.isEmpty && !boilerplateStart t then t.take 200
    else findTitle bs

/-- The extracted metadata. -/
structure Metadata where
  title : List Char
  date : List Char

/-- Metadata Extractor (`extract_metadata_from_blocks`, lines 205-274):
title from the first ten `(page, y0, x0)`-sorted blocks, date from the
pattern loop over the space-joined full text. -/
def extract_metadata_from_blocks (blocks : List Block) : Metadata :=
  { title := findTitle ((sortBlocks blocks).take 10),
    date := tryDatePatterns datePatterns (allText blocks) }

/-- One call of the annotation collaborator as the batch function observes
it: either the content string extracted from a successful transport
round-trip, or the exception caught by the outer `except` (transport error,
HTTP error status, malformed envelope), carrying `str(e)`. -/
inductive BatchResp where
  | success (content : List Char) : BatchResp
  | failure (err : List Char) : BatchResp

/-- First cleaning `re.sub` of the batch response (`llm_openrouter.py`,
line 68): one leading code-fence token is removed (the `^` anchor can only
match at the start, so at most one substitution fires); the alternatives
are tried in their written order under `re.IGNORECASE`. -/
def dropFenceStart (l : List Char) : List Char :=
  match matchLitCI ("```json".data) l with
  | some r => r.2
  | none =>
    match matchLitCI ("```python".data) l with
    | some r => r.2
    | none =>
      match matchLitCI ("```".data) l with
      | some r => r.2
      | none => l

/-- Second cleaning `re.sub` (line 69): a trailing triple backtick is
removed. -/
def dropFenceEnd (l : List Char) : List Char :=
  if l.length ≥ 3 && l.drop (l.length - 3) = "```".data then
    l.take (l.length - 3)
  else l

/-- The full content normalization of lines 68-70: strip, remove a leading
fence, strip, remove a trailing fence, strip. -/
def normalizeContent (raw : List Char) : List Char :=
  pyStrip (dropFenceEnd (pyStrip (dropFenceStart (pyStrip raw))))

/-- The error-tagged empty annotation with the raw text preserved (lines 82
and 88). -/
def rawObj (content : List Char) : Json :=
  .obj
    [ ("summary".data, .str []), ("intention".data, .str []),
      ("keywords".data, .str []), ("raw".data, .str content) ]

/-- The error-tagged empty annotation carrying the exception message
(line 91). -/
def errObj (err : List Char) : Json :=
  .obj
    [ ("summary".data, .str []), ("intention".data, .str []),
      ("keywords".data, .str []), ("error".data, .str err) ]

/-- Element handling of the list-of-strings branch (lines 76-83): each
string is parsed independently; a parse failure substitutes the error-tagged
empty object.  Non-string elements cannot occur under the guarding
`all(isinstance(x, str))`. -/
def parseStrElement (loads : List Char → Option Json) : Json → Json
  | .str s =>
    match loads s with
    | some j => j
    | none => rawObj s
  | j => j

/-- Enrichment Orchestrator batch call
(`analyze_articles_batch_with_mistral`, `llm_openrouter.py` lines 39-91),
with `json.loads` abstracted as the `loads` parameter (`none` = the parse
raised).  A transport failure yields one error object per requested
article; a response parsed as a list of dicts is returned as is; a list of
strings is re-parsed element by element; a single dict is wrapped; every
other outcome (parse failure, non-list non-dict value, mixed list) yields
one raw-tagged object per requested article. -/
def analyze_articles_batch_with_mistral (loads : List Char → Option Json)
    (article_texts : List (List Char)) (resp : BatchResp) : List Json :=
  match resp with
  | .failure e => List.replicate article_texts.length (errObj e)
  | .success raw =>
    let content := normalizeContent raw
    match loads content with
    | some (.arr xs) =>
      if xs.all Json.isDict then xs
      else if xs.all Json.isStr then xs.map (parseStrElement loads)
      else List.replicate article_texts.length (rawObj content)
    | some (.obj kvs) => [Json.obj kvs]
    | some _ => List.replicate article_texts.length (rawObj content)
    | none => List.replicate article_texts.length (rawObj content)

/-- Per-article text cleaning (`clean_section_article_text`, lines 394-406). -/
def cleanArticle (a : Article) : Article :=
  { a with
    article_title :=
      pyStrip (collapseWs (remove_section_titles_from_title
        (join_broken_words a.article_title))),
    article_content :=
      pyStrip (collapseWs (remove_trailing_page_numbers
        (stripMidPageNumbers (join_broken_words a.article_content)))) }

/-- Text Normalizer pass (`clean_section_article_text`, lines 387-407): the
section titles and the articles' titles and contents are rewritten in place;
the Python loop mutates each dictionary and returns the same list, which is
a map in the functional reading. -/
def clean_section_article_text (sections : List Section) : List Section :=
  sections.map fun s =>
    { s with
      section_title := pyStrip (collapseWs (join_broken_words s.section_title)),
      articles := s.articles.map cleanArticle }

/-- One observed call to the annotation collaborator: the document-level
request with its concatenated text, or a batch request with its ordered
article contents. -/
inductive CallEvent where
  | doc (text : List Char) : CallEvent
  | batch (texts : List (List Char)) : CallEvent

/-- Merging a batch's results onto its articles (`parse_pdf.py` lines
316-319): `zip` stops at the shorter side, so surplus articles keep their
dictionaries unchanged and surplus results are dropped. -/
def mergeBatch : List Article → List Json → List Article
  | a :: as2, r :: rs =>
    { a with
      article_summary := some (jsonGetD r ("summary".data) (.str [])),
      article_intention := some (jsonGetD r ("intention".data) (.str [])),
      article_keywords := some (jsonGetD r ("keywords".data) (.str [])) }
      :: mergeBatch as2 rs
  | as2, [] => as2
  | [], _ => []

/-- The per-section batch loop (lines 310-319): articles are processed in
chunks of `BATCH_SIZE = 5`; each chunk issues one collaborator call whose
request is the ordered list of the chunk's contents.  Returns the merged
articles and the calls in issue order. -/
def enhanceBatches (batchA : List (List Char) → List Json)
    (arts : List Article) : List Article × List CallEvent :=
  if arts.isEmpty then ([], [])
  else
    let batch := arts.take 5
    let batch_texts := batch.map (·.article_content)
    let rs := batchA batch_texts
    let rest := enhanceBatches batchA (arts.drop 5)
    (mergeBatch batch rs ++ rest.1, CallEvent.batch batch_texts :: rest.2)
termination_by arts.length
decreasing_by
  rename_i h
  simp only [List.length_drop]
  have : arts ≠ [] := by simpa [List.isEmpty_iff] using h
  have : 0 < arts.length := List.length_pos.mpr this
  omega

/-- The section loop of the enrichment pass (lines 306-319); a section with
no articles issues no call (`if not articles: continue`). -/
def enhanceSections (batchA : List (List Char) → List Json) :
    List Section → List Section × List CallEvent
  | [] => ([], [])
  | s :: ss =>
    let r1 := enhanceBatches batchA s.articles
    let rest := enhanceSections batchA ss
    ({ s with articles := r1.1 } :: rest.1, r1.2 ++ rest.2)

/-- The output dictionary of `parse_pdf` (lines 324-331): the optional
document-level enrichment keys exist only when enrichment ran.  The title
slot holds whatever value the enrichment response supplied when it is
truthy, else the metadata title string. -/
structure ParseResult where
  document_title : Json
  document_date : List Char
  document_summary : Option Json
  document_intention : Option Json
  document_keywords : Option Json
  sections : List Section

/-- Document Assembler and Enrichment Orchestrator (`parse_pdf`, lines
277-333), taking the already-extracted fragment list (the fatal extraction
step is the input collaborator) and the two annotation collaborators as
parameters.  Returns the result together with the ordered log of
collaborator calls: the whole-document call first, then the per-section
batch calls. -/
def parse_pdf (blocks : List Block) (enhance : Bool)
    (docA : List Char → Json) (batchA : List (List Char) → List Json) :
    ParseResult × List CallEvent :=
  let metadata := extract_metadata_from_blocks blocks
  let sections := clean_section_article_text
    (split_into_sections_and_articles_with_layout blocks)
  if enhance then
    let all_article_texts :=
      sections.flatMap fun s => s.articles.map (·.article_content)
    let full_text := joinNl all_article_texts
    let doc_result := docA full_text
    let document_title_enhanced := jsonGetD doc_result ("title".data) (.str [])
    let enriched := enhanceSections batchA sections
    ({ document_title :=
         if jsonTruthy document_title_enhanced then document_title_enhanced
         else .str metadata.title,
       document_date := metadata.date,
       document_summary := some (jsonGetD doc_result ("summary".data) (.str [])),
       document_intention := some (jsonGetD doc_result ("intention".data) (.str [])),
       document_keywords := some (jsonGetD doc_result ("keywords".data) (.str [])),
       sections := enriched.1 },
     CallEvent.doc full_text :: enriched.2)
  else
    ({ document_title := .str metadata.title,
       document_date := metadata.date,
       document_summary := none,
       document_intention := none,
       document_keywords := none,
       sections := sections },
     [])

/-- Block builder for concrete test fragments: text and left x-coordinate,
all other layout fields zeroed. -/
def mkB (t : String) (x : ℚ) : Block :=
  { text := t.data, x0 := x, y0 := 0, x1 := 0, y1 := 0, page := 0,
    font := [], size := 0, flags := 0 }

/-- Article numbers already committed to the output in a segmenter state: the
articles of the closed sections, those of the open section, and the pending
article exactly when a section is open to receive it at flush time. -/
def doneNumbers (st : SegState) : List (List Char) :=
  secNumbers st.sections ++
    (match st.current_section with
     | some s => s.articles.map (·.article_number)
     | none => []) ++
    (match st.current_article, st.current_section with
     | some n, some _ => [n]
     | _, _ => [])

/-- The numbers of the logged article-marker matches that occurred while a
section was open, in match order. -/
def keptNumbers (log : List (List Char × Bool)) : List (List Char) :=
  log.filterMap fun e => if e.2 then some e.1 else none

/-- The middle element `xs[len(xs) // 2]` of a sorted position list (the
source's median of an odd-length list; for an even length it takes the
upper middle element). -/
def medianOfSorted (xs : List ℚ) : ℚ :=
  xs.getD (xs.length / 2) 0

/-- The sub-marker letters absorbed by the section look-ahead from a run of
blank or single-capital-letter fragments: blanks contribute nothing, markers
their dot-stripped text. -/
def absorbedLetters (subs : List Block) : List (List Char) :=
  subs.filterMap fun sb =>
    if (pyStrip sb.text).isEmpty then none else some (rstripDots (pyStrip sb.text))

/-- Concrete stream for the segmenter count claim: one fragment matching the
bare-numeric article pattern before any section marker. -/
def c2Blocks : List Block := [mkB "1. Foo" 0]

/-- Concrete stream for the section look-ahead claim: a numeral followed by
a sub-marker fragment and nothing else. -/
def c4Blocks : List Block := [mkB "I" 0, mkB "A." 0]

/-- Concrete look-ahead run for the look-ahead characterization witness: a
sub-marker fragment and a blank fragment. -/
def c4wSubs : List Block := [mkB "A." 0, mkB "" 0]

/-- The substantive title fragment of the look-ahead witness. -/
def c4wTb : Block := mkB "Tiere" 0

/-- Concrete single-fragment streams for the date-extraction examples. -/
def c9BlocksNum : List Block := [mkB "03/04/99" 0]

/-- German-date variant of the date-extraction example stream. -/
def c9BlocksDe : List Block := [mkB "12. März 2023" 0]

/-- Stream whose only date-like text fails date construction under every
pattern. -/
def c8Blocks : List Block := [mkB "Stand 31/02/2023" 0]

/-- Concrete permuted fragment pairs for the estimator invariance claim. -/
def c5BlocksA : List Block := [mkB "links" 10, mkB "rechts" 200]

/-- The same fragments as `c5BlocksA` in the opposite order. -/
def c5BlocksB : List Block := [mkB "rechts" 200, mkB "links" 10]

/-- An all-blank fragment list for the estimator zero case. -/
def c5Blank : List Block := [mkB "" 3, mkB "   " 7]

/-- Single-fragment stream for the estimator median fallback. -/
def c6Blocks : List Block := [mkB "nur einer" 7]

/-- A `json.loads` oracle for the batch-length counterexample: the content
`[{}]` parses to a one-element list of dicts. -/
def c1Loads (s : List Char) : Option Json :=
  if s = "[{}]".data then some (.arr [.obj []]) else none

/-- Two requested article contents for the batch-length counterexample. -/
def c1Texts : List (List Char) := ["Artikel eins".data, "Artikel zwei".data]

/-- Collaborators for the disabled-enrichment witness: never consulted. -/
def c7DocA (_ : List Char) : Json := .null

/-- Batch collaborator for the disabled-enrichment witness. -/
def c7BatchA (_ : List (List Char)) : List Json := []

/-- Concrete stream for the disabled-enrichment witness. -/
def c7Blocks : List Block :=
  [mkB "Reglement" 0, mkB "I" 0, mkB "Allgemeines" 0, mkB "Art. 1: Zweck" 0]

/-- An article dictionary that carries none of the three enrichment keys. -/
def noEnrichArticle (a : Article) : Prop :=
  a.article_summary = none ∧ a.article_intention = none ∧ a.article_keywords = none

/-- A section list none of whose articles carries an enrichment key. -/
def noEnrichSections (secs : List Section) : Prop :=
  ∀ s ∈ secs, ∀ a ∈ s.articles, noEnrichArticle a

/-- Segmenter-state invariant: no already-built article dictionary carries
an enrichment key. -/
def noEnrichState (st : SegState) : Prop :=
  noEnrichSections st.sections ∧
    (∀ s, st.current_section = some s → ∀ a ∈ s.articles, noEnrichArticle a)

/-- Sorting rationals depends only on the multiset of elements. -/
theorem sortQ_perm {l l' : List ℚ} (h : l.Perm l') : sortQ l = sortQ l' := by
  have hp : (sortQ l).Perm (sortQ l') :=
    (List.perm_insertionSort _ l).trans (h.trans (List.perm_insertionSort _ l').symm)
  exact List.eq_of_perm_of_sorted hp
    (List.sorted_insertionSort _ l) (List.sorted_insertionSort _ l')

/-- Sorting an already produced sort again changes nothing. -/
theorem sortQ_idem (l : List ℚ) : sortQ (sortQ l) = sortQ l := by
  exact List.eq_of_perm_of_sorted (List.perm_insertionSort _ (sortQ l))
    (List.sorted_insertionSort _ _) (List.sorted_insertionSort _ _)

/-- A permutation of the block list permutes the collected x-positions. -/
theorem xPositions_perm {blocks blocks' : List Block} (h : blocks.Perm blocks') :
    (xPositions blocks).Perm (xPositions blocks') :=
  (h.filter _).map _

/-- C5. For every fragment list and every permutation of it,
`find_column_separator` returns the same value, and it returns `0` whenever
the list is empty or has no fragment with non-empty trimmed text (the empty
case is the vacuous instance of the all-blank case). -/
theorem find_column_separator_perm_invariant
    (blocks blocks' : List Block) (h : blocks.Perm blocks') :
    find_column_separator blocks = find_column_separator blocks' ∧
      ((∀ b ∈ blocks, pyStrip b.text = []) → find_column_separator blocks = 0) := by
  constructor
  · have hx : sortQ (xPositions blocks) = sortQ (xPositions blocks') :=
      sortQ_perm (xPositions_perm h)
    have hlen : (xPositions blocks).length = (xPositions blocks').length :=
      (xPositions_perm h).length_eq
    have hxe : (xPositions blocks).isEmpty = (xPositions blocks').isEmpty := by
      rcases hb : xPositions blocks with _ | ⟨a, l⟩ <;>
        rcases hb' : xPositions blocks' with _ | ⟨a', l'⟩ <;> simp_all
    have hbe : blocks.isEmpty = blocks'.isEmpty := by
      rcases hb : blocks with _ | ⟨a, l⟩ <;> rcases hb' : blocks' with _ | ⟨a', l'⟩ <;>
        simp_all [h.length_eq]
    unfold find_column_separator colSepOf
    rw [hx, hxe, hbe]
  · intro hall
    have hx : xPositions blocks = [] := by
      unfold xPositions
      rw [List.map_eq_nil_iff, List.filter_eq_nil_iff]
      intro b hb
      simp [hall b hb]
    unfold find_column_separator
    rw [hx]
    simp

/-- C5 witness: a concrete two-fragment swap and a concrete all-blank list. -/
theorem find_column_separator_perm_invariant_witness :
    c5BlocksA.Perm c5BlocksB ∧
      find_column_separator c5BlocksA = find_column_separator c5BlocksB ∧
      (∀ b ∈ c5Blank, pyStrip b.text = []) ∧
      find_column_separator c5Blank = 0 := by
  have hperm : c5BlocksA.Perm c5BlocksB := List.Perm.swap _ _ _
  have hblank : ∀ b ∈ c5Blank, pyStrip b.text = [] := by decide
  exact ⟨hperm, (find_column_separator_perm_invariant c5BlocksA c5BlocksB hperm).1,
    hblank,
    (find_column_separator_perm_invariant c5Blank c5Blank (List.Perm.refl _)).2 hblank⟩

/-- When every consecutive sorted pair is within the threshold, no gap
qualifies. -/
theorem gapsOf_eq_nil_of_chain {l : List ℚ}
    (h : l.Chain' (fun a b => b - a ≤ 20)) : gapsOf l = [] := by
  induction l with
  | nil => rfl
  | cons a l ih =>
    cases l with
    | nil => rfl
    | cons b rest =>
      rw [List.chain'_cons] at h
      unfold gapsOf
      rw [if_neg (by simpa using h.1), ih h.2]
      rfl

/-- C6. When at least one fragment has non-blank text and no consecutive
pair of sorted x-positions differs by strictly more than 20 layout units,
the estimator returns the median (middle element) of the sorted
x-positions. -/
theorem find_column_separator_median
    (blocks : List Block)
    (h1 : xPositions blocks ≠ [])
    (h2 : (sortQ (xPositions blocks)).Chain' (fun a b => b - a ≤ 20)) :
    find_column_separator blocks =
      medianOfSorted (sortQ (xPositions blocks)) := by
  have hblocks : blocks ≠ [] := by
    intro hb
    exact h1 (by simp [hb, xPositions])
  unfold find_column_separator colSepOf
  rw [if_neg (by simpa using hblocks), if_neg (by simpa using h1),
    gapsOf_eq_nil_of_chain h2]
  simp only [maxByGap, List.foldl_nil]
  rw [sortQ_idem, medianOfSorted]

/-- C6 witness: a single-fragment list whose sorted positions have no gaps;
the estimator returns the middle element `7`. -/
theorem find_column_separator_median_witness :
    xPositions c6Blocks ≠ [] ∧
      (sortQ (xPositions c6Blocks)).Chain' (fun a b => b - a ≤ 20) ∧
      find_column_separator c6Blocks = medianOfSorted (sortQ (xPositions c6Blocks)) ∧
      medianOfSorted (sortQ (xPositions c6Blocks)) = 7 := by
  have hx : xPositions c6Blocks = [7] := by decide
  have hs : sortQ [(7 : ℚ)] = [7] := by decide
  refine ⟨by simp [hx], ?_, ?_, by rw [hx, hs]; rfl⟩
  · rw [hx, hs]
    exact List.chain'_singleton _
  · exact find_column_separator_median c6Blocks (by simp [hx])
      (by rw [hx, hs]; exact List.chain'_singleton _)

/-- C3 counterexample: on the cited example title the leftmost sub-marker
occurrence is the leading `I.` itself (at position 0), so the whole title is
discarded and the result is the empty string, not the claimed prefix
`I. Allgemeine Bestimmungen`. -/
theorem remove_section_titles_cited_example :
    remove_section_titles_from_title
        ("I. Allgemeine Bestimmungen A. Geltungsbereich".data) ≠
      "I. Allgemeine Bestimmungen".data ∧
    remove_section_titles_from_title
        ("I. Allgemeine Bestimmungen A. Geltungsbereich".data) = [] := by
  constructor <;> decide

/-- The leftmost-match search of the title sub-marker pattern returns the
smallest position where the pattern matches. -/
theorem titleMarkerSearch_leftmost (title : List Char) (p : ℕ)
    (h1 : titleMarkerHere (title.drop p) = true)
    (h2 : ∀ q < p, titleMarkerHere (title.drop q) = false) :
    titleMarkerSearch title = some p := by
  induction title generalizing p with
  | nil =>
    exfalso
    rw [List.drop_nil] at h1
    simp [titleMarkerHere, romanDotHere, capDotHere] at h1
  | cons c cs ih =>
    cases p with
    | zero =>
      rw [List.drop_zero] at h1
      unfold titleMarkerSearch
      rw [if_pos h1]
    | succ p =>
      have h0 : titleMarkerHere (c :: cs) = false := by
        simpa using h2 0 (Nat.succ_pos p)
      unfold titleMarkerSearch
      rw [if_neg (by simp [h0]), ih p (by simpa using h1)
        (fun q hq => by simpa using h2 (q + 1) (by omega))]
      rfl

/-- C3 amended: in general the title in fact keeps exactly the prefix before
the leftmost position where the sub-marker pattern (up to two whitespace
characters, then a roman-numeral run plus dot or a capital letter plus dot)
matches — whitespace-collapsed and stripped; on the cited example this
leftmost position is 0, so the result is empty. -/
theorem remove_section_titles_keeps_prefix (title : List Char) (p : ℕ)
    (h1 : titleMarkerHere (title.drop p) = true)
    (h2 : ∀ q < p, titleMarkerHere (title.drop q) = false) :
    remove_section_titles_from_title title = collapseWs (pyStrip (title.take p)) := by
  unfold remove_section_titles_from_title
  rw [titleMarkerSearch_leftmost title p h1 h2]

/-- C3 witness: in `Foo A. Bar` the leftmost sub-marker match starts at
position 3 (one space, then `A.`), and the kept prefix is `Foo`. -/
theorem remove_section_titles_keeps_prefix_witness :
    titleMarkerHere (("Foo A. Bar".data).drop 3) = true ∧
      (∀ q < 3, titleMarkerHere (("Foo A. Bar".data).drop q) = false) ∧
      remove_section_titles_from_title ("Foo A. Bar".data) =
        collapseWs (pyStrip (("Foo A. Bar".data).take 3)) ∧
      collapseWs (pyStrip (("Foo A. Bar".data).take 3)) = "Foo".data := by
  refine ⟨by decide, by decide, ?_, by decide⟩
  exact remove_section_titles_keeps_prefix ("Foo A. Bar".data) 3 (by decide) (by decide)

/-- C9. The date extractor applies the two-digit-year pivot to the numeric
day-month-year pattern (`03/04/99` gives `03.04.1999`), and the German
`D. Month Y` pattern formats `12. März 2023` as `12.03.2023` (on that text
only the fifth pattern matches). -/
theorem extract_date_examples :
    (extract_metadata_from_blocks c9BlocksNum).date = "03.04.1999".data ∧
      (extract_metadata_from_blocks c9BlocksDe).date = "12.03.2023".data := by
  constructor <;> decide

/-- A formatted date is never the empty string. -/
theorem formatPyDate_ne_nil (dt : PyDate) : formatPyDate dt ≠ [] := by
  simp [formatPyDate, pad2]

/-- The pattern loop yields the empty string exactly when every pattern
fails to produce a valid date. -/
theorem tryDatePatterns_eq_nil_iff (ps : List DatePat) (s : List Char) :
    tryDatePatterns ps s = [] ↔ ∀ p ∈ ps, constructDate p s = none := by
  induction ps with
  | nil => simp [tryDatePatterns]
  | cons p ps ih =>
    unfold tryDatePatterns
    cases hc : constructDate p s with
    | some dt =>
      simp only [List.mem_cons]
      constructor
      · intro h
        exact absurd h (formatPyDate_ne_nil dt)
      · intro h
        exact absurd hc (by simp [h p (Or.inl rfl)])
    | none =>
      simp only [List.mem_cons, ih]
      constructor
      · intro h q hq
        rcases hq with rfl | hq
        · exact hc
        · exact h q hq
      · intro h q hq
        exact h q (Or.inr hq)

/-- C8. Date extraction is total by construction (construction failure is
the `none` of `constructDate`, never a propagated exception): the extracted
date is empty exactly when no pattern's first match yields a valid calendar
date, and a failing pattern is discarded in favour of the remaining
patterns in priority order. -/
theorem extract_date_error_recovery (blocks : List Block) :
    ((extract_metadata_from_blocks blocks).date = [] ↔
      ∀ p ∈ datePatterns, constructDate p (allText blocks) = none) ∧
    (∀ (p : DatePat) (ps : List DatePat) (s : List Char),
      constructDate p s = none →
        tryDatePatterns (p :: ps) s = tryDatePatterns ps s) := by
  constructor
  · exact tryDatePatterns_eq_nil_iff datePatterns (allText blocks)
  · intro p ps s hc
    simp only [tryDatePatterns, hc]

/-- C8 witness: `Stand 31/02/2023` matches the numeric pattern but 31
February is rejected, every other pattern fails, and the extracted date is
empty; discarding the failing first pattern leaves the remaining loop. -/
theorem extract_date_error_recovery_witness :
    (extract_metadata_from_blocks c8Blocks).date = [] ∧
      constructDate DatePat.dmy (allText c8Blocks) = none ∧
      tryDatePatterns (DatePat.dmy :: [DatePat.deDMonthY]) ("31/02/2023".data) =
        tryDatePatterns [DatePat.deDMonthY] ("31/02/2023".data) := by
  refine ⟨(extract_date_error_recovery c8Blocks).1.mpr (by decide), by decide, ?_⟩
  exact (extract_date_error_recovery c8Blocks).2 DatePat.dmy [DatePat.deDMonthY]
    ("31/02/2023".data) (by decide)

/-- C1 counterexample: with two requested article contents and a well-formed
response that parses to a one-element list of annotation objects, the batch
function returns that single element, not a list of length two. -/
theorem analyze_batch_length_not_request_length :
    (analyze_articles_batch_with_mistral c1Loads c1Texts
        (BatchResp.success ("[{}]".data))).length ≠ c1Texts.length ∧
      (analyze_articles_batch_with_mistral c1Loads c1Texts
        (BatchResp.success ("[{}]".data))).length = 1 := by
  constructor <;> decide

/-- C1 amended: the result count equals the request count for transport
failures and for responses that fail to parse, parse to a scalar, or parse
to a mixed list; a response parsed as a list of objects or a list of
strings is returned with that list's own length, and a single object is
returned as a one-element list. -/
theorem analyze_batch_length (loads : List Char → Option Json)
    (article_texts : List (List Char)) (resp : BatchResp) :
    (analyze_articles_batch_with_mistral loads article_texts resp).length =
      match resp with
      | .failure _ => article_texts.length
      | .success raw =>
        match loads (normalizeContent raw) with
        | some (.arr xs) =>
          if xs.all Json.isDict || xs.all Json.isStr then xs.length
          else article_texts.length
        | some (.obj _) => 1
        | _ => article_texts.length := by
  cases resp with
  | failure e => simp [analyze_articles_batch_with_mistral]
  | success raw =>
    unfold analyze_articles_batch_with_mistral
    cases hl : loads (normalizeContent raw) with
    | none => simp [hl]
    | some j =>
      cases j with
      | arr xs =>
        by_cases hd : xs.all Json.isDict
        · simp [hl, hd]
        · by_cases hs : xs.all Json.isStr <;> simp [hl, hd, hs]
      | obj kvs => simp [hl]
      | null => simp [hl]
      | bool b => simp [hl]
      | num q => simp [hl]
      | str s => simp [hl]

/-- The text-normalization pass rewrites each section in place. -/
theorem clean_is_map (sections : List Section) :
    clean_section_article_text sections =
      sections.map fun s =>
        { s with
          section_title := pyStrip (collapseWs (join_broken_words s.section_title)),
          articles := s.articles.map cleanArticle } := rfl

/-- C10. The cleaning pass preserves the number and order of sections, the
number and order of articles inside each section, and every article's
number and (absent) enrichment fields; only the three text fields are
rewritten. -/
theorem clean_section_article_text_frame (sections : List Section) :
    (clean_section_article_text sections).length = sections.length ∧
      (clean_section_article_text sections).map
          (fun s => s.articles.map fun a =>
            (a.article_number, a.article_summary, a.article_intention,
              a.article_keywords)) =
        sections.map
          (fun s => s.articles.map fun a =>
            (a.article_number, a.article_summary, a.article_intention,
              a.article_keywords)) := by
  constructor
  · simp [clean_section_article_text]
  · rw [clean_is_map, List.map_map]
    refine List.map_congr_left fun s _ => ?_
    simp only [Function.comp_apply, List.map_map]
    refine List.map_congr_left fun a _ => ?_
    simp [cleanArticle]

/-- Closing the pending article and section commits exactly the numbers
`doneNumbers` predicts. -/
theorem secNumbers_flush (st : SegState) :
    secNumbers (flushSection (flushArticle st)).sections = doneNumbers st := by
  rcases st with ⟨sections, cs, ca, tb, cb, sk⟩
  cases ca with
  | none =>
    cases cs with
    | none => simp [flushArticle, flushSection, doneNumbers, secNumbers]
    | some s => simp [flushArticle, flushSection, doneNumbers, secNumbers]
  | some n =>
    cases cs with
    | none => simp [flushArticle, flushSection, doneNumbers, secNumbers]
    | some s => simp [flushArticle, flushSection, doneNumbers, secNumbers]

/-- Opening a fresh empty section after the flush leaves the committed
numbers unchanged. -/
theorem doneNumbers_open_section (st : SegState) (title : List Char) (k : ℕ) :
    doneNumbers
        { flushSection (flushArticle st) with
          current_section := some { section_title := title, articles := [] },
          skip := k } =
      doneNumbers st := by
  rcases st with ⟨sections, cs, ca, tb, cb, sk⟩
  cases ca with
  | none =>
    cases cs with
    | none => simp [flushArticle, flushSection, doneNumbers, secNumbers]
    | some s => simp [flushArticle, flushSection, doneNumbers, secNumbers]
  | some n =>
    cases cs with
    | none => simp [flushArticle, flushSection, doneNumbers, secNumbers]
    | some s => simp [flushArticle, flushSection, doneNumbers, secNumbers]

/-- Flushing the old article and installing a new pending one adds the new
number exactly when a section is open to receive it. -/
theorem doneNumbers_open_article (st : SegState) (num : List Char)
    (tb2 cb2 : List (List Char)) (k : ℕ) :
    doneNumbers
        { flushArticle st with
          current_article := some num,
          current_title_blocks := tb2, current_content_blocks := cb2, skip := k } =
      doneNumbers st ++ (if st.current_section.isSome then [num] else []) := by
  rcases st with ⟨sections, cs, ca, tb, cb, sk⟩
  cases ca with
  | none =>
    cases cs with
    | none => simp [flushArticle, doneNumbers, secNumbers]
    | some s => simp [flushArticle, doneNumbers, secNumbers]
  | some n =>
    cases cs with
    | none => simp [flushArticle, doneNumbers, secNumbers]
    | some s => simp [flushArticle, doneNumbers, secNumbers]

/-- One logged entry contributes its number exactly when its section-open
flag is set. -/
theorem keptNumbers_cons (num : List Char) (flag : Bool)
    (log : List (List Char × Bool)) :
    keptNumbers ((num, flag) :: log) =
      (if flag then [num] else []) ++ keptNumbers log := by
  cases flag <;> simp [keptNumbers]

/-- Invariant of the instrumented segmenter run: the numbers of the produced
articles are the already-committed numbers of the entry state followed by
the numbers of the logged matches that occurred while a section was open,
in match order. -/
theorem segRun_numbers (c : ℚ) (bs : List Block) (st : SegState) :
    secNumbers (segRun c bs st).1 =
      doneNumbers st ++ keptNumbers (segRun c bs st).2 := by
  induction bs, st using segRun.induct c with
  | case1 st =>
    simp [segRun, keptNumbers, secNumbers_flush st]
  | case2 b bs st h ih =>
    rw [segRun, if_pos h]
    exact ih
  | case3 b bs st h t htEmpty ih =>
    simp only [segRun, h, htEmpty]
    simpa using ih
  | case4 b bs st h t htEmpty hnum numeral stitle st1 st2 ih =>
    simp only [segRun, h, htEmpty, hnum]
    simp only [Bool.false_eq_true, if_false, if_true, not_false_eq_true]
    rw [ih, doneNumbers_open_section]
  | case5 b bs st h t htEmpty hnum num rawTitle hm st1 title_text st2 ih =>
    simp only [segRun, h, htEmpty, hnum, hm]
    simp only [Bool.false_eq_true, if_false, not_false_eq_true]
    rw [keptNumbers_cons, ih, doneNumbers_open_article]
    rw [List.append_assoc]
  | case6 b bs st h t htEmpty hnum hm hart hx ih =>
    simp only [segRun, h, htEmpty, hnum, hm, hart, hx]
    simpa using ih
  | case7 b bs st h t htEmpty hnum hm hart hx ih =>
    simp only [segRun, h, htEmpty, hnum, hm, hart, hx]
    simpa using ih
  | case8 b bs st h t htEmpty hnum hm hart ih =>
    simp only [segRun, h, htEmpty, hnum, hm, hart]
    simpa using ih

/-- C2 counterexample: the single fragment `1. Foo` is matched as an article
marker, but no section is ever open, so the flush drops the article and the
output contains zero articles against one match. -/
theorem segmenter_count_not_match_count :
    countArticles (split_into_sections_and_articles_with_layout c2Blocks) ≠
        (segLog c2Blocks).length ∧
      (segLog c2Blocks).length = 1 ∧
      countArticles (split_into_sections_and_articles_with_layout c2Blocks) = 0 := by
  refine ⟨by decide, by decide, by decide⟩

/-- C2 amended: the article numbers of the segmenter's output, in output
order, are exactly the numbers of the article-marker matches that occurred
while a section was open, in first-match order; in particular the total
article count equals the count of those matches (matches made before the
first section marker are dropped at flush time). -/
theorem segmenter_articles_eq_kept_matches (blocks : List Block) :
    secNumbers (split_into_sections_and_articles_with_layout blocks) =
        keptNumbers (segLog blocks) ∧
      countArticles (split_into_sections_and_articles_with_layout blocks) =
        (keptNumbers (segLog blocks)).length := by
  have h := segRun_numbers (find_column_separator blocks) blocks initSegState
  have hd : doneNumbers initSegState = [] := rfl
  rw [hd, List.nil_append] at h
  refine ⟨h, ?_⟩
  rw [countArticles, split_into_sections_and_articles_with_layout, h, segLog]

/-- A positive skip counter makes the run ignore exactly that many
fragments: running with `skip = n` equals running past the first `n`
fragments (this is the resume point `i = j + 1` of the source). -/
theorem segRun_skip (c : ℚ) (n : ℕ) (bs : List Block) (st : SegState)
    (h : st.skip = 0) :
    segRun c bs { st with skip := n } = segRun c (bs.drop n) st := by
  induction bs generalizing n with
  | nil =>
    rcases st with ⟨se, cs, ca, tb, cb, sk⟩
    cases ca <;> cases cs <;> simp [segRun, flushArticle, flushSection]
  | cons b bs ih =>
    cases n with
    | zero =>
      have hst : { st with skip := 0 } = st := by
        rcases st with ⟨se, cs, ca, tb, cb, sk⟩
        simp_all
      rw [hst, List.drop_zero]
    | succ n =>
      rw [segRun, if_pos (by simp)]
      simpa using ih n

/-- The flushing steps never touch the skip counter. -/
theorem flush_skip (st : SegState) :
    (flushSection (flushArticle st)).skip = st.skip := by
  rcases st with ⟨se, cs, ca, tb, cb, sk⟩
  cases ca <;> cases cs <;> simp [flushArticle, flushSection]

/-- Characterization of the look-ahead on a structured stream: a run of
blank-or-sub-marker fragments followed by a substantive fragment yields the
absorbed dot-stripped letters plus that fragment's stripped text, and
consumes the whole run including the substantive fragment. -/
theorem lookAhead_structured (subs : List Block) (tb : Block) (rest : List Block)
    (hsubs : ∀ sb ∈ subs, pyStrip sb.text = [] ∨ isSubMarker (pyStrip sb.text) = true)
    (htb1 : ¬ pyStrip tb.text = [])
    (htb2 : isSubMarker (pyStrip tb.text) = false) :
    lookAheadParts (subs ++ tb :: rest) = absorbedLetters subs ++ [pyStrip tb.text] ∧
      lookAheadCount (subs ++ tb :: rest) = subs.length + 1 := by
  induction subs with
  | nil =>
    refine ⟨?_, ?_⟩
    · simp [lookAheadParts, absorbedLetters, htb2,
        List.isEmpty_iff, htb1]
    · simp [lookAheadCount, List.isEmpty_iff, htb1, htb2]
  | cons sb subs ih =>
    have ih2 := ih (fun s hs => hsubs s (List.mem_cons_of_mem sb hs))
    rcases hsubs sb (List.mem_cons_self sb subs) with hblank | hmark
    · refine ⟨?_, ?_⟩
      · simp [lookAheadParts, absorbedLetters, hblank, ih2.1,
          absorbedLetters]
      · simp [lookAheadCount, hblank, ih2.2]
        omega
    · have hne : ¬ (pyStrip sb.text).isEmpty = true := by
        intro hh
        rw [List.isEmpty_iff.mp hh] at hmark
        simp [isSubMarker] at hmark
      refine ⟨?_, ?_⟩
      · simp only [List.cons_append, lookAheadParts, absorbedLetters,
          List.filterMap_cons]
        rw [if_neg hne]
        simp only [hmark, if_true, hne, if_false]
        simp [ih2.1, absorbedLetters]
      · simp only [List.cons_append, lookAheadCount, List.append_eq]
        rw [if_neg hne, if_pos hmark, ih2.2]
        simp
        omega

/-- C4 counterexample: after the numeral `I` the look-ahead absorbs the
sub-marker `A.` and finds no substantive fragment, yet the opened section's
title is `I. A` rather than the claimed bare numeral `I`. -/
theorem section_title_absorbs_submarkers :
    skeleton (split_into_sections_and_articles_with_layout c4Blocks) ≠
        [("I".data, [])] ∧
      skeleton (split_into_sections_and_articles_with_layout c4Blocks) =
        [("I. A".data, [])] := by
  constructor <;> decide

/-- C4 amended: on a section-marker fragment followed by blank or
single-capital-letter fragments and then a substantive fragment, the run
flushes, opens a section whose title is `"<numeral>. <absorbed dot-stripped
letters and the substantive text, joined by spaces>"` (outer-stripped), and
resumes scanning after the consumed look-ahead fragments. -/
theorem section_lookahead_amended (c : ℚ) (st : SegState) (b : Block)
    (subs : List Block) (tb : Block) (rest : List Block)
    (hskip : st.skip = 0)
    (hnum : isSectionNumeral (pyStrip b.text) = true)
    (hsubs : ∀ sb ∈ subs, pyStrip sb.text = [] ∨ isSubMarker (pyStrip sb.text) = true)
    (htb1 : ¬ pyStrip tb.text = [])
    (htb2 : isSubMarker (pyStrip tb.text) = false) :
    segRun c (b :: (subs ++ tb :: rest)) st =
      segRun c rest
        { flushSection (flushArticle st) with
          current_section := some
            { section_title :=
                pyStrip (composeSectionTitle (rstripDots (pyStrip b.text))
                  (absorbedLetters subs ++ [pyStrip tb.text])),
              articles := [] } } := by
  have hne : ¬ (pyStrip b.text).isEmpty = true := by
    intro hh
    rw [List.isEmpty_iff.mp hh] at hnum
    simp [isSectionNumeral] at hnum
  have hla := lookAhead_structured subs tb rest hsubs htb1 htb2
  rw [segRun, if_neg (by simp [hskip])]
  simp only [hne, if_false, hnum, if_true, Bool.false_eq_true, not_false_eq_true]
  rw [hla.1, hla.2]
  have hdrop : (subs ++ tb :: rest).drop (subs.length + 1) = rest := by
    have h1 : subs ++ tb :: rest = (subs ++ [tb]) ++ rest := by simp
    have h2 : (subs ++ [tb]).length = subs.length + 1 := by simp
    rw [h1, ← h2, List.drop_left]
  have happ := segRun_skip c (subs.length + 1) (subs ++ tb :: rest)
    { flushSection (flushArticle st) with
      current_section := some
        { section_title :=
            pyStrip (composeSectionTitle (rstripDots (pyStrip b.text))
              (absorbedLetters subs ++ [pyStrip tb.text])),
          articles := [] } }
    (by show (flushSection (flushArticle st)).skip = 0; rw [flush_skip]; exact hskip)
  rw [hdrop] at happ
  exact happ

/-- C4 witness: numeral `I`, absorbed sub-marker `A.`, a blank fragment,
then the substantive `Tiere`; the opened section title is `I. A Tiere` and
the run resumes on the empty remainder. -/
theorem section_lookahead_amended_witness :
    initSegState.skip = 0 ∧
      isSectionNumeral (pyStrip (mkB "I" 0).text) = true ∧
      (∀ sb ∈ c4wSubs, pyStrip sb.text = [] ∨ isSubMarker (pyStrip sb.text) = true) ∧
      ¬ pyStrip c4wTb.text = [] ∧
      isSubMarker (pyStrip c4wTb.text) = false ∧
      segRun 0 (mkB "I" 0 :: (c4wSubs ++ c4wTb :: [])) initSegState =
        segRun 0 []
          { flushSection (flushArticle initSegState) with
            current_section := some
              { section_title :=
                  pyStrip (composeSectionTitle (rstripDots (pyStrip (mkB "I" 0).text))
                    (absorbedLetters c4wSubs ++ [pyStrip c4wTb.text])),
                articles := [] } } ∧
      pyStrip (composeSectionTitle (rstripDots (pyStrip (mkB "I" 0).text))
          (absorbedLetters c4wSubs ++ [pyStrip c4wTb.text])) = "I. A Tiere".data := by
  refine ⟨rfl, by decide, by decide, by decide, by decide, ?_, by decide⟩
  exact section_lookahead_amended 0 initSegState (mkB "I" 0) c4wSubs c4wTb []
    rfl (by decide) (by decide) (by decide) (by decide)

/-- Flushing the pending article preserves the no-enrichment invariant: the
newly built article carries no enrichment keys. -/
theorem flushArticle_noEnrich (st : SegState) (h : noEnrichState st) :
    noEnrichState (flushArticle st) := by
  rcases st with ⟨se, cs, ca, tb, cb, sk⟩
  cases ca with
  | none => exact h
  | some n =>
    cases cs with
    | none =>
      refine ⟨h.1, ?_⟩
      intro s hs
      simp [flushArticle] at hs
    | some sec =>
      refine ⟨h.1, ?_⟩
      intro s hs a ha
      simp only [flushArticle] at hs
      rw [Option.some_inj] at hs
      subst hs
      rcases List.mem_append.mp ha with ha2 | ha2
      · exact h.2 _ rfl a ha2
      · rcases List.mem_singleton.mp ha2 with rfl
        exact ⟨rfl, rfl, rfl⟩

/-- Flushing the open section preserves the invariant. -/
theorem flushSection_noEnrich (st : SegState) (h : noEnrichState st) :
    noEnrichState (flushSection st) := by
  rcases st with ⟨se, cs, ca, tb, cb, sk⟩
  cases cs with
  | none => exact h
  | some sec =>
    refine ⟨?_, ?_⟩
    · intro s hs a ha
      simp only [flushSection] at hs
      rcases List.mem_append.mp hs with hs2 | hs2
      · exact h.1 s hs2 a ha
      · rcases List.mem_singleton.mp hs2 with rfl
        exact h.2 _ rfl a ha
    · intro s hs
      simp [flushSection] at hs

/-- Every article built by the segmenter carries no enrichment keys. -/
theorem segRun_noEnrich (c : ℚ) (bs : List Block) (st : SegState)
    (h : noEnrichState st) : noEnrichSections (segRun c bs st).1 := by
  induction bs, st using segRun.induct c with
  | case1 st =>
    simp only [segRun]
    exact (flushSection_noEnrich _ (flushArticle_noEnrich _ h)).1
  | case2 b bs st hc ih =>
    rw [segRun, if_pos hc]
    exact ih h
  | case3 b bs st hc t htEmpty ih =>
    simp only [segRun, hc, htEmpty]
    simp only [Bool.false_eq_true, if_false, if_true, not_false_eq_true]
    exact ih h
  | case4 b bs st hc t htEmpty hnum numeral stitle st1 st2 ih =>
    simp only [segRun, hc, htEmpty, hnum]
    simp only [Bool.false_eq_true, if_false, if_true, not_false_eq_true]
    refine ih ⟨(flushSection_noEnrich _ (flushArticle_noEnrich _ h)).1, ?_⟩
    intro s hs a ha
    rw [Option.some_inj] at hs
    subst hs
    simp at ha
  | case5 b bs st hc t htEmpty hnum num rawTitle hm st1 title_text st2 ih =>
    simp only [segRun, hc, htEmpty, hnum, hm]
    simp only [Bool.false_eq_true, if_false, not_false_eq_true]
    have h1 := flushArticle_noEnrich st h
    exact ih ⟨h1.1, fun s hs a ha => h1.2 s hs a ha⟩
  | case6 b bs st hc t htEmpty hnum hm hart hx ih =>
    simp only [segRun, hc, htEmpty, hnum, hm, hart, hx]
    simp only [Bool.false_eq_true, if_false, if_true, not_false_eq_true]
    exact ih ⟨h.1, fun s hs a ha => h.2 s hs a ha⟩
  | case7 b bs st hc t htEmpty hnum hm hart hx ih =>
    simp only [segRun, hc, htEmpty, hnum, hm, hart, hx]
    simp only [Bool.false_eq_true, if_false, if_true, not_false_eq_true]
    exact ih ⟨h.1, fun s hs a ha => h.2 s hs a ha⟩
  | case8 b bs st hc t htEmpty hnum hm hart ih =>
    simp only [segRun, hc, htEmpty, hnum, hm, hart]
    simp only [Bool.false_eq_true, if_false, if_true, not_false_eq_true]
    exact ih h

/-- The cleaning pass preserves the absence of enrichment keys. -/
theorem clean_noEnrich (secs : List Section) (h : noEnrichSections secs) :
    noEnrichSections (clean_section_article_text secs) := by
  intro s hs a ha
  rw [clean_is_map] at hs
  rcases List.mem_map.mp hs with ⟨s0, hs0, rfl⟩
  simp only [List.mem_map] at ha
  rcases ha with ⟨a0, ha0, rfl⟩
  have h0 := h s0 hs0 a0 ha0
  exact ⟨by simp [cleanArticle, h0.1], by simp [cleanArticle, h0.2.1],
    by simp [cleanArticle, h0.2.2]⟩

/-- C7. With enrichment disabled, `parse_pdf` performs no collaborator
call, its result carries no document-level summary, intention or keywords
keys, none of its articles carries an enrichment key, and the document
title is the Metadata Extractor's title. -/
theorem parse_pdf_no_enhance (blocks : List Block) (docA : List Char → Json)
    (batchA : List (List Char) → List Json) :
    (parse_pdf blocks false docA batchA).2 = [] ∧
      (parse_pdf blocks false docA batchA).1.document_summary = none ∧
      (parse_pdf blocks false docA batchA).1.document_intention = none ∧
      (parse_pdf blocks false docA batchA).1.document_keywords = none ∧
      (∀ s ∈ (parse_pdf blocks false docA batchA).1.sections, ∀ a ∈ s.articles,
        a.article_summary = none ∧ a.article_intention = none ∧
          a.article_keywords = none) ∧
      (parse_pdf blocks false docA batchA).1.document_title =
        Json.str (extract_metadata_from_blocks blocks).title := by
  refine ⟨rfl, rfl, rfl, rfl, ?_, rfl⟩
  have hinit : noEnrichState initSegState := by
    refine ⟨?_, ?_⟩
    · intro s hs
      simp [initSegState] at hs
    · intro s hs
      simp [initSegState] at hs
  exact clean_noEnrich _
    (segRun_noEnrich (find_column_separator blocks) blocks initSegState hinit)

/-- C7 witness: the no-enrichment theorem applied to a concrete stream and
concrete collaborators. -/
theorem parse_pdf_no_enhance_witness :
    (parse_pdf c7Blocks false c7DocA c7BatchA).2 = [] ∧
      (parse_pdf c7Blocks false c7DocA c7BatchA).1.document_summary = none ∧
      (parse_pdf c7Blocks false c7DocA c7BatchA).1.document_title =
        Json.str (extract_metadata_from_blocks c7Blocks).title :=
  ⟨(parse_pdf_no_enhance c7Blocks c7DocA c7BatchA).1,
    (parse_pdf_no_enhance c7Blocks c7DocA c7BatchA).2.1,
    (parse_pdf_no_enhance c7Blocks c7DocA c7BatchA).2.2.2.2.2⟩

end SwissLegalRag
